import Mathlib

/-!
Shallow embedding of `src/yb/tools/fs_tool.cc` (the `yb::tools::FsTool`
read-only WAL/metadata inspection tool).

External collaborators (FsManager, Env, ReadableLogSegment::Open,
TabletMetadata::Load, gutil string helpers, HumanReadableNumBytes) are
modelled as fields of an `Env` record or as small pure functions; the
functions of `fs_tool.cc` itself are translated statement by statement.
Stdout is modelled as the `List String` of emissions (one element per
`std::cout` statement ending in `std::endl`, plus the final un-terminated
emission of `PrintLogSegmentHeader`); a `Status` result models the
`yb::Status` return value.
-/

/-- Error kinds of the `yb::Status` taxonomy used by this tool. -/
inductive ErrorKind
  | notFound
  | corruption
  | uninitialized
  | ioError
  | invalidArgument
deriving DecidableEq

/-- The `yb::Status` result type: OK, or an error kind with a message. -/
inductive Status
  | ok
  | error (kind : ErrorKind) (msg : String)
deriving DecidableEq

/-- `Status::IsUninitialized()`. -/
def Status.isUninitialized : Status → Bool
  | .error .uninitialized _ => true
  | _ => false

/-- `Status::IsCorruption()`. -/
def Status.isCorruption : Status → Bool
  | .error .corruption _ => true
  | _ => false

/-- `Status::IsNotFound()`. -/
def Status.isNotFound : Status → Bool
  | .error .notFound _ => true
  | _ => false

/-- `Status::CloneAndPrepend(p)` as used by `RETURN_NOT_OK_PREPEND`:
prepends `p ++ ": "` to the message of a non-OK status. -/
def Status.prepend (p : String) : Status → Status
  | .ok => .ok
  | .error k m => .error k (p ++ ": " ++ m)

/-- Modelled from the spec: the data the Log Segment Header Reader renders on
success, `ReadableLogSegment::file_size()` and `header().DebugString()`. -/
structure SegmentInfo where
  fileSize : Nat
  headerDebugString : String
deriving DecidableEq

/-- Modelled from the spec: the outcome of `ReadableLogSegment::Open` — a
header on success, otherwise a non-OK status (kind and message). -/
inductive OpenOutcome
  | opened (seg : SegmentInfo)
  | failed (kind : ErrorKind) (msg : String)
deriving DecidableEq

/-- Modelled from the spec: the fields of a loaded `TabletMetadata` record that
`fs_tool.cc` consumes. `superBlockResult` is the outcome of `ToSuperBlock`
followed by `DebugString()` (the conversion itself may fail). -/
structure TabletMeta where
  walDir : String
  partitionDebugString : String
  tableName : String
  tableId : String
  schemaVersion : Nat
  schemaString : String
  superBlockResult : Except (ErrorKind × String) String

/-- The external collaborators of `FsTool`: the `FsManager`/`Env` filesystem
interface, the log-format reader, and the metadata store. `listDir` and
`listTabletIds` return either a listing or the kind and message of the
underlying non-OK status. -/
structure Env where
  walRootDirs : List String
  fsExists : String → Bool
  listDir : String → Except (ErrorKind × String) (List String)
  isLogFileName : String → Bool
  openSegment : String → OpenOutcome
  humanBytes : Nat → String
  tabletMetas : String → Option TabletMeta
  listTabletIds : Except (ErrorKind × String) (List String)

/-- `FsTool::DetailLevel` from `fs_tool.h` (modelled from the spec: an ordered
enumeration `ID_ONLY < HEADERS_ONLY < FULL`). -/
inductive DetailLevel
  | idOnly
  | headersOnly
  | full
deriving DecidableEq

/-- Numeric value of a detail level, giving the enum order. -/
def DetailLevel.toNat : DetailLevel → Nat
  | .idOnly => 0
  | .headersOnly => 1
  | .full => 2

/-- The `detail_level_ >= HEADERS_ONLY`-style comparison on detail levels. -/
def DetailLevel.ge (a b : DetailLevel) : Bool := Nat.ble b.toNat a.toNat

/-- `Indent(indent)`: a string of `indent` spaces (fs_tool.cc, anonymous
namespace). -/
def Indent (indent : Nat) : String := String.mk (List.replicate indent ' ')

/-- Helper for `StringReplace(s, "\n", "\n" + pad, true)`: inserts `pad` after
every newline character. -/
def insertAfterNewlines (pad : String) : List Char → List Char
  | [] => []
  | c :: cs =>
      if c = '\n' then c :: (pad.data ++ insertAfterNewlines pad cs)
      else c :: insertAfterNewlines pad cs

/-- `IndentString(s, indent)` (fs_tool.cc, anonymous namespace):
`Indent(indent) + StringReplace(s, "\n", "\n" + Indent(indent), true)`. -/
def IndentString (s : String) (indent : Nat) : String :=
  Indent indent ++ String.mk (insertAfterNewlines (Indent indent) s.data)

/-- gutil `HasPrefixString(s, p)`. -/
def HasPrefixString (s p : String) : Bool := p.data.isPrefixOf s.data

/-- gutil `HasSuffixString(s, suf)`. -/
def HasSuffixString (s suf : String) : Bool := suf.data.isSuffixOf s.data

/-- `FsManager::kWalsRecoveryDirSuffix` (modelled from the spec: the reserved
suffix that marks a tablet recovery directory, e.g. `TAB1.recovery`). -/
def kWalsRecoveryDirSuffix : String := ".recovery"

/-- `JoinPathSegments(a, b)` of yb/util (modelled: joins with a separator). -/
def JoinPathSegments (a b : String) : String := a ++ "/" ++ b

/-- `FsManager::GetTabletWalRecoveryDir(wal_dir)` (modelled from the spec: the
tablet WAL directory path with the reserved recovery suffix appended). -/
def GetTabletWalRecoveryDir (walDir : String) : String :=
  walDir ++ kWalsRecoveryDirSuffix

/-- `FsTool::PrintLogSegmentHeader(path, indent)` (fs_tool.cc:216-239).
Opens the segment; an `Uninitialized` or `Corruption` open status is logged
(to the diagnostic stream, so no stdout emission) and the function returns
OK; any other non-OK status is returned with the context
`Unexpected error reading log segment <path>` prepended; on success the file
size and the header debug rendering are printed. -/
def PrintLogSegmentHeader (env : Env) (path : String) (indent : Nat) :
    Status × List String :=
  match env.openSegment path with
  | .failed k m =>
      let s := Status.error k m
      if s.isUninitialized then (Status.ok, [])
      else if s.isCorruption then (Status.ok, [])
      else (s.prepend ("Unexpected error reading log segment " ++ path), [])
  | .opened segment =>
      (Status.ok,
        [Indent indent ++ "Size: " ++ env.humanBytes segment.fileSize,
         Indent indent ++ "Header: ",
         IndentString segment.headerDebugString indent])

/-- The per-entry loop of `FsTool::ListSegmentsInDir` (fs_tool.cc:201-212):
skip names not recognized by `log::IsLogFileName`; at `HEADERS_ONLY` or above
print `Segment: <name>` and the header (aborting on a non-OK header status);
below that print the name after a tab. -/
def SegmentsLoop (env : Env) (dl : DetailLevel) (segmentsDir : String) :
    List String → Status × List String
  | [] => (Status.ok, [])
  | segment :: rest =>
      if !env.isLogFileName segment then SegmentsLoop env dl segmentsDir rest
      else if DetailLevel.ge dl .headersOnly then
        let path := JoinPathSegments segmentsDir segment
        let r := PrintLogSegmentHeader env path 2
        if r.1 = Status.ok then
          let t := SegmentsLoop env dl segmentsDir rest
          (t.1, ("Segment: " ++ segment) :: r.2 ++ t.2)
        else (r.1, ("Segment: " ++ segment) :: r.2)
      else
        let t := SegmentsLoop env dl segmentsDir rest
        (t.1, ("\t" ++ segment) :: t.2)

/-- `FsTool::ListSegmentsInDir(segments_dir)` (fs_tool.cc:196-214): list the
directory (wrapping a listing failure with `Unable to list log segments`),
print the `Segments in <dir>:` banner, then run the per-entry loop. -/
def ListSegmentsInDir (env : Env) (dl : DetailLevel) (segmentsDir : String) :
    Status × List String :=
  match env.listDir segmentsDir with
  | .error e => (Status.error e.1 ("Unable to list log segments: " ++ e.2), [])
  | .ok segments =>
      let t := SegmentsLoop env dl segmentsDir segments
      (t.1, ("Segments in " ++ segmentsDir ++ ":") :: t.2)

/-- The per-child loop of `FsTool::ListAllLogSegments` (fs_tool.cc:139-152):
skip hidden (dot-prefixed) children; label the child as a log recovery
directory iff its name ends in `FsManager::kWalsRecoveryDirSuffix`, otherwise
as a log directory; then scan it with `ListSegmentsInDir`, aborting on a
non-OK scan status. -/
def ChildLoop (env : Env) (dl : DetailLevel) (tableWalDir : String) :
    List String → Status × List String
  | [] => (Status.ok, [])
  | child :: rest =>
      if HasPrefixString child "." then ChildLoop env dl tableWalDir rest
      else
        let path := JoinPathSegments tableWalDir child
        let label :=
          if HasSuffixString child kWalsRecoveryDirSuffix then
            "Log recovery dir found: " ++ path
          else
            "Log directory: " ++ path
        let r := ListSegmentsInDir env dl path
        if r.1 = Status.ok then
          let t := ChildLoop env dl tableWalDir rest
          (t.1, label :: r.2 ++ t.2)
        else (r.1, label :: r.2)

/-- The per-table loop of `FsTool::ListAllLogSegments` (fs_tool.cc:135-153):
for each table directory, list its children (wrapping a failure with
`Could not list log directories`) and run the per-child loop. -/
def TableLoop (env : Env) (dl : DetailLevel) (walsDir : String) :
    List String → Status × List String
  | [] => (Status.ok, [])
  | table :: rest =>
      let tableWalDir := JoinPathSegments walsDir table
      match env.listDir tableWalDir with
      | .error e =>
          (Status.error e.1 ("Could not list log directories: " ++ e.2), [])
      | .ok children =>
          let r := ChildLoop env dl tableWalDir children
          if r.1 = Status.ok then
            let t := TableLoop env dl walsDir rest
            (t.1, r.2 ++ t.2)
          else r

/-- The per-root loop of `FsTool::ListAllLogSegments` (fs_tool.cc:119-154):
for each WAL root, return a `Corruption` status if the root does not exist;
otherwise print the root banner, list the table directories (wrapping a
failure with `Could not list table directories`), erase the dot-prefixed
entries, and run the per-table loop. -/
def RootLoop (env : Env) (dl : DetailLevel) : List String → Status × List String
  | [] => (Status.ok, [])
  | walsDir :: rest =>
      if !env.fsExists walsDir then
        (Status.error .corruption
          ("root log directory '" ++ walsDir ++ "' does not exist"), [])
      else
        match env.listDir walsDir with
        | .error e =>
            (Status.error e.1 ("Could not list table directories: " ++ e.2),
             ["Root log directory: " ++ walsDir])
        | .ok tables =>
            let tables2 := tables.filter (fun s => !HasPrefixString s ".")
            let r := TableLoop env dl walsDir tables2
            if r.1 = Status.ok then
              let t := RootLoop env dl rest
              (t.1, ("Root log directory: " ++ walsDir) :: r.2 ++ t.2)
            else (r.1, ("Root log directory: " ++ walsDir) :: r.2)

/-- `FsTool::ListAllLogSegments()` (fs_tool.cc:115-156): run the per-root loop
over `FsManager::GetWalRootDirs()`. -/
def ListAllLogSegments (env : Env) (dl : DetailLevel) : Status × List String :=
  RootLoop env dl env.walRootDirs

/-- Modelled from the spec: `TabletMetadata::Load` (external to fs_tool.cc)
fails with `NotFound` naming the tablet id when no such tablet exists, and
otherwise yields the loaded metadata record. -/
def LoadTabletMetadata (env : Env) (tabletId : String) : Except Status TabletMeta :=
  match env.tabletMetas tabletId with
  | none =>
      .error (Status.error .notFound
        ("Unable to load tablet metadata for tablet id " ++ tabletId))
  | some m => .ok m

/-- `FsTool::ListLogSegmentsForTablet(tablet_id)` (fs_tool.cc:158-177): load
the metadata (propagating its failure), return `NotFound` naming the tablet
and its WAL directory if that directory does not exist, otherwise print the
`Tablet WAL dir found:` banner and scan it; then, if the recovery directory
exists, print the `Recovery dir found:` banner and scan it too. -/
def ListLogSegmentsForTablet (env : Env) (dl : DetailLevel) (tabletId : String) :
    Status × List String :=
  match LoadTabletMetadata env tabletId with
  | .error s => (s, [])
  | .ok meta =>
      let tabletWalDir := meta.walDir
      if !env.fsExists tabletWalDir then
        (Status.error .notFound
          ("tablet '" ++ tabletId ++ "' has no logs in wals dir '" ++
            tabletWalDir ++ "'"), [])
      else
        let r := ListSegmentsInDir env dl tabletWalDir
        if r.1 = Status.ok then
          let recoveryDir := GetTabletWalRecoveryDir tabletWalDir
          if env.fsExists recoveryDir then
            let r2 := ListSegmentsInDir env dl recoveryDir
            (r2.1, ("Tablet WAL dir found: " ++ tabletWalDir) :: r.2 ++
              ("Recovery dir found: " ++ recoveryDir) :: r2.2)
          else
            (Status.ok, ("Tablet WAL dir found: " ++ tabletWalDir) :: r.2)
        else (r.1, ("Tablet WAL dir found: " ++ tabletWalDir) :: r.2)

/-- `FsTool::PrintTabletMeta(tablet_id, indent)` (fs_tool.cc:241-260): load
the metadata (propagating its failure), print partition, table name/id and
schema lines, then the superblock rendering (wrapping a conversion failure
with `Could not get superblock`). -/
def PrintTabletMeta (env : Env) (tabletId : String) (indent : Nat) :
    Status × List String :=
  match LoadTabletMetadata env tabletId with
  | .error s => (s, [])
  | .ok meta =>
      let l1 := Indent indent ++ "Partition: " ++ meta.partitionDebugString
      let l2 := Indent indent ++ "Table name: " ++ meta.tableName ++
        " Table id: " ++ meta.tableId
      let l3 := Indent indent ++ "Schema (version=" ++
        toString meta.schemaVersion ++ "): " ++ meta.schemaString
      match meta.superBlockResult with
      | .error e =>
          (Status.error e.1 ("Could not get superblock: " ++ e.2), [l1, l2, l3])
      | .ok sb => (Status.ok, [l1, l2, l3, "Superblock:\n" ++ sb])

/-- The per-tablet loop of `FsTool::ListAllTablets` (fs_tool.cc:185-192): at
`HEADERS_ONLY` or above print `Tablet: <id>` and the tablet metadata
(aborting on a non-OK status); below that print the id after a tab. -/
def TabletLoop (env : Env) (dl : DetailLevel) : List String → Status × List String
  | [] => (Status.ok, [])
  | tablet :: rest =>
      if DetailLevel.ge dl .headersOnly then
        let r := PrintTabletMeta env tablet 2
        if r.1 = Status.ok then
          let t := TabletLoop env dl rest
          (t.1, ("Tablet: " ++ tablet) :: r.2 ++ t.2)
        else (r.1, ("Tablet: " ++ tablet) :: r.2)
      else
        let t := TabletLoop env dl rest
        (t.1, ("\t" ++ tablet) :: t.2)

/-- `FsTool::ListAllTablets()` (fs_tool.cc:180-194): list the tablet ids
(propagating a failure) and run the per-tablet loop. -/
def ListAllTablets (env : Env) (dl : DetailLevel) : Status × List String :=
  match env.listTabletIds with
  | .error e => (Status.error e.1 e.2, [])
  | .ok tablets => TabletLoop env dl tablets

/-- Two sequential invocations of `PrintLogSegmentHeader` on the same path
against the same filesystem state: the embedding threads no mutable tool
state between the calls, mirroring that `FsTool::PrintLogSegmentHeader`
reads no mutable member besides the immutable collaborator handle. -/
def PrintLogSegmentHeaderTwice (env : Env) (path : String) (indent : Nat) :
    (Status × List String) × (Status × List String) :=
  (PrintLogSegmentHeader env path indent, PrintLogSegmentHeader env path indent)

/-- Concrete collaborator environments and records used by the closed
witness and counterexample theorems below. -/
def segInfoW : SegmentInfo := { fileSize := 100, headerDebugString := "hdr" }

def metaW : TabletMeta :=
  { walDir := "w", partitionDebugString := "part", tableName := "tn",
    tableId := "tid", schemaVersion := 3, schemaString := "sch",
    superBlockResult := Except.ok "sb" }

def baseEnv : Env :=
  { walRootDirs := []
  , fsExists := fun _ => false
  , listDir := fun _ => Except.ok []
  , isLogFileName := fun _ => false
  , openSegment := fun _ => OpenOutcome.failed ErrorKind.ioError "io failure"
  , humanBytes := fun n => Nat.repr n
  , tabletMetas := fun _ => none
  , listTabletIds := Except.ok [] }

def envSeg : Env :=
  { baseEnv with
      listDir := fun d => if d = "d" then Except.ok ["seg1", "stray"] else Except.ok []
    , isLogFileName := fun s => s == "seg1"
    , openSegment := fun _ => OpenOutcome.opened segInfoW }

def envRoot : Env := { baseEnv with walRootDirs := ["r"] }

def envU : Env :=
  { baseEnv with
      openSegment := fun _ => OpenOutcome.failed ErrorKind.uninitialized "no header" }

def envCor : Env :=
  { baseEnv with
      openSegment := fun _ => OpenOutcome.failed ErrorKind.corruption "bad header" }

def envTab : Env :=
  { baseEnv with
      fsExists := fun s => s == "w"
    , tabletMetas := fun id => if id == "t1" then some metaW else none }

theorem ge_full_headers : DetailLevel.ge .full .headersOnly = true := rfl

theorem ge_headers_headers : DetailLevel.ge .headersOnly .headersOnly = true := rfl

theorem ge_id_headers : DetailLevel.ge .idOnly .headersOnly = false := rfl

theorem segmentsLoop_full_eq (env : Env) (d : String) :
    ∀ l : List String,
      SegmentsLoop env .full d l = SegmentsLoop env .headersOnly d l := by
  intro l
  induction l with
  | nil => rfl
  | cons s t ih =>
      cases h : env.isLogFileName s <;>
        simp only [SegmentsLoop, h, ih, ge_full_headers, ge_headers_headers,
          Bool.not_false, Bool.not_true, if_true, if_false]

theorem listSegmentsInDir_full_eq (env : Env) (d : String) :
    ListSegmentsInDir env .full d = ListSegmentsInDir env .headersOnly d := by
  unfold ListSegmentsInDir
  cases h : env.listDir d <;> simp [h, segmentsLoop_full_eq]

theorem childLoop_full_eq (env : Env) (d : String) :
    ∀ l : List String, ChildLoop env .full d l = ChildLoop env .headersOnly d l := by
  intro l
  induction l with
  | nil => rfl
  | cons c t ih =>
      cases h : HasPrefixString c "." <;>
        simp only [ChildLoop, h, ih, listSegmentsInDir_full_eq,
          Bool.false_eq_true, if_true, if_false]

theorem tableLoop_full_eq (env : Env) (d : String) :
    ∀ l : List String, TableLoop env .full d l = TableLoop env .headersOnly d l := by
  intro l
  induction l with
  | nil => rfl
  | cons tb t ih =>
      simp only [TableLoop]
      cases h : env.listDir (JoinPathSegments d tb) <;>
        simp only [h, ih, childLoop_full_eq]

theorem rootLoop_full_eq (env : Env) :
    ∀ l : List String, RootLoop env .full l = RootLoop env .headersOnly l := by
  intro l
  induction l with
  | nil => rfl
  | cons r t ih =>
      simp only [RootLoop]
      cases h : env.fsExists r
      · simp
      · cases h2 : env.listDir r <;>
          simp only [h2, ih, tableLoop_full_eq, Bool.not_true, if_false, if_true]

theorem tabletLoop_full_eq (env : Env) :
    ∀ l : List String, TabletLoop env .full l = TabletLoop env .headersOnly l := by
  intro l
  induction l with
  | nil => rfl
  | cons tb t ih =>
      simp only [TabletLoop, ih, ge_full_headers, ge_headers_headers, if_true]

/-- C10: every branch of fs_tool.cc on the detail level tests only
`detail_level_ >= HEADERS_ONLY` (fs_tool.cc:186, fs_tool.cc:205), so for any
filesystem state, target directory and tablet id, the output and status
produced at `FULL` are exactly identical to those produced at
`HEADERS_ONLY`, for every entry point of the tool. -/
theorem full_output_eq_headersOnly_output :
    ∀ (env : Env) (dir tabletId : String),
      ListSegmentsInDir env .full dir = ListSegmentsInDir env .headersOnly dir ∧
      ListAllTablets env .full = ListAllTablets env .headersOnly ∧
      ListAllLogSegments env .full = ListAllLogSegments env .headersOnly ∧
      ListLogSegmentsForTablet env .full tabletId =
        ListLogSegmentsForTablet env .headersOnly tabletId := by
  intro env dir tabletId
  refine ⟨listSegmentsInDir_full_eq env dir, ?_, ?_, ?_⟩
  · unfold ListAllTablets
    cases h : env.listTabletIds <;> simp [h, tabletLoop_full_eq]
  · unfold ListAllLogSegments
    exact rootLoop_full_eq env env.walRootDirs
  · unfold ListLogSegmentsForTablet
    cases h : LoadTabletMetadata env tabletId
    · rfl
    · simp only [listSegmentsInDir_full_eq]

theorem rootLoop_ne_ok (env : Env) (dl : DetailLevel) (d : String)
    (h : env.fsExists d = false) :
    ∀ l : List String, d ∈ l → (RootLoop env dl l).1 ≠ Status.ok := by
  intro l
  induction l with
  | nil => intro hm; cases hm
  | cons r t ih =>
      intro hm
      simp only [RootLoop]
      cases hr : env.fsExists r
      · simp only [Bool.not_false, if_true]
        exact fun hc => Status.noConfusion hc
      · have hdt : d ∈ t := by
          rcases List.mem_cons.1 hm with h1 | h1
          · subst h1; rw [h] at hr; cases hr
          · exact h1
        simp only [Bool.not_true, Bool.false_eq_true, if_false]
        cases h2 : env.listDir r
        · exact fun hc => Status.noConfusion hc
        · simp only []
          split
          · simpa using ih hdt
          · next hne => simpa using hne

/-- C2 counterexample: with the single WAL root `r` absent from the
filesystem, `ListAllLogSegments` returns a Corruption status (message
`root log directory 'r' does not exist`), not a NotFound status as the
claim states (fs_tool.cc:121 builds `STATUS(Corruption, ...)`). -/
theorem missing_root_is_corruption_not_notFound :
    (ListAllLogSegments envRoot DetailLevel.idOnly).1 =
      Status.error ErrorKind.corruption "root log directory 'r' does not exist" ∧
    (ListAllLogSegments envRoot DetailLevel.idOnly).1.isNotFound = false := by
  decide

/-- C2 amended: for every WAL root directory that does not exist,
`ListAllLogSegments` fails with a Corruption error (naming the missing root
directory) and aborts the walk: with any nonexistent root among the
configured roots the walk never returns OK, and when the walk reaches the
missing root first, the result is exactly the Corruption status naming it,
with no output for that root. -/
theorem missing_root_aborts_with_corruption (env : Env) (dl : DetailLevel)
    (d : String) (hmem : d ∈ env.walRootDirs) (h : env.fsExists d = false) :
    (ListAllLogSegments env dl).1 ≠ Status.ok ∧
    (∀ rest, env.walRootDirs = d :: rest →
      ListAllLogSegments env dl =
        (Status.error ErrorKind.corruption
          ("root log directory '" ++ d ++ "' does not exist"), [])) := by
  constructor
  · exact rootLoop_ne_ok env dl d h env.walRootDirs hmem
  · intro rest hr
    unfold ListAllLogSegments
    rw [hr]
    simp [RootLoop, h]

/-- Witness for the amended C2 theorem at the concrete environment whose one
root `r` does not exist. -/
theorem missing_root_aborts_with_corruption_witness :
    (ListAllLogSegments envRoot DetailLevel.idOnly).1 ≠ Status.ok ∧
    ListAllLogSegments envRoot DetailLevel.idOnly =
      (Status.error ErrorKind.corruption
        ("root log directory '" ++ "r" ++ "' does not exist"), []) := by
  have h := missing_root_aborts_with_corruption envRoot DetailLevel.idOnly "r"
    (by decide) rfl
  exact ⟨h.1, h.2 [] rfl⟩

/-- C6 counterexample: for the directory `d` holding one recognized segment
`seg1`, the line `"\tseg1"` appears in the ID_ONLY output of
`ListSegmentsInDir` but not in its HEADERS_ONLY output (which prints
`Segment: seg1` instead), so the HEADERS_ONLY output is not a line-for-line
superset of the ID_ONLY output. -/
theorem headersOnly_not_line_superset_of_idOnly :
    "\tseg1" ∈ (ListSegmentsInDir envSeg DetailLevel.idOnly "d").2 ∧
    "\tseg1" ∉ (ListSegmentsInDir envSeg DetailLevel.headersOnly "d").2 := by
  decide

/-- C6 amended: for the same target directory or tablet and the same
filesystem state, the output produced at detail level FULL is a line-for-line
superset of the output produced at HEADERS_ONLY (the two are in fact
identical); the HEADERS_ONLY output is not in general a line-for-line
superset of the ID_ONLY output, because the same items are rendered with a
`"\t"` prefix at ID_ONLY but with a `Segment: `/`Tablet: ` prefix at
HEADERS_ONLY. -/
theorem full_line_superset_of_headersOnly :
    ∀ (env : Env) (dir tabletId line : String),
      (line ∈ (ListSegmentsInDir env .headersOnly dir).2 →
        line ∈ (ListSegmentsInDir env .full dir).2) ∧
      (line ∈ (ListAllTablets env .headersOnly).2 →
        line ∈ (ListAllTablets env .full).2) ∧
      (line ∈ (ListAllLogSegments env .headersOnly).2 →
        line ∈ (ListAllLogSegments env .full).2) ∧
      (line ∈ (ListLogSegmentsForTablet env .headersOnly tabletId).2 →
        line ∈ (ListLogSegmentsForTablet env .full tabletId).2) := by
  intro env dir tabletId line
  refine ⟨?_, ?_, ?_, ?_⟩
  · rw [listSegmentsInDir_full_eq]; exact id
  · unfold ListAllTablets
    cases h : env.listTabletIds <;> simp [h, tabletLoop_full_eq]
  · unfold ListAllLogSegments
    rw [rootLoop_full_eq]; exact id
  · unfold ListLogSegmentsForTablet
    cases h : LoadTabletMetadata env tabletId
    · exact id
    · simp only [listSegmentsInDir_full_eq]; exact id

/-- Witness for the amended C6 theorem: the HEADERS_ONLY line
`Segment: seg1` of the concrete directory listing also appears in the FULL
output. -/
theorem full_line_superset_of_headersOnly_witness :
    "Segment: seg1" ∈ (ListSegmentsInDir envSeg DetailLevel.full "d").2 :=
  (full_line_superset_of_headersOnly envSeg "d" "t" "Segment: seg1").1 (by decide)

/-- C1: PrintLogSegmentHeader treats an Uninitialized or Corruption open
result as non-fatal (no stdout output, OK status, scan continues); any other
open failure is returned with the context naming the path prepended; on
success the size line, the header banner and the indented header rendering
are printed. -/
theorem printLogSegmentHeader_classification (env : Env) (path : String)
    (indent : Nat) :
    (∀ m, env.openSegment path = OpenOutcome.failed ErrorKind.uninitialized m →
      PrintLogSegmentHeader env path indent = (Status.ok, [])) ∧
    (∀ m, env.openSegment path = OpenOutcome.failed ErrorKind.corruption m →
      PrintLogSegmentHeader env path indent = (Status.ok, [])) ∧
    (∀ k m, env.openSegment path = OpenOutcome.failed k m →
      k ≠ ErrorKind.uninitialized → k ≠ ErrorKind.corruption →
      PrintLogSegmentHeader env path indent =
        (Status.error k
          ("Unexpected error reading log segment " ++ path ++ ": " ++ m), [])) ∧
    (∀ seg, env.openSegment path = OpenOutcome.opened seg →
      PrintLogSegmentHeader env path indent =
        (Status.ok,
          [Indent indent ++ "Size: " ++ env.humanBytes seg.fileSize,
           Indent indent ++ "Header: ",
           IndentString seg.headerDebugString indent])) := by
  refine ⟨?_, ?_, ?_, ?_⟩
  · intro m h
    simp [PrintLogSegmentHeader, h, Status.isUninitialized]
  · intro m h
    simp [PrintLogSegmentHeader, h, Status.isUninitialized, Status.isCorruption]
  · intro k m h hk1 hk2
    cases k <;>
      simp_all [PrintLogSegmentHeader, Status.isUninitialized,
        Status.isCorruption, Status.prepend]
  · intro seg h
    simp [PrintLogSegmentHeader, h]

/-- Witness for the C1 theorem at concrete environments realizing each of the
four open outcomes. -/
theorem printLogSegmentHeader_classification_witness :
    PrintLogSegmentHeader envU "p" 2 = (Status.ok, []) ∧
    PrintLogSegmentHeader envCor "p" 2 = (Status.ok, []) ∧
    PrintLogSegmentHeader baseEnv "p" 2 =
      (Status.error ErrorKind.ioError
        ("Unexpected error reading log segment " ++ "p" ++ ": " ++ "io failure"),
       []) ∧
    PrintLogSegmentHeader envSeg "p" 2 =
      (Status.ok,
        [Indent 2 ++ "Size: " ++ envSeg.humanBytes segInfoW.fileSize,
         Indent 2 ++ "Header: ",
         IndentString segInfoW.headerDebugString 2]) :=
  ⟨(printLogSegmentHeader_classification envU "p" 2).1 "no header" rfl,
   (printLogSegmentHeader_classification envCor "p" 2).2.1 "bad header" rfl,
   (printLogSegmentHeader_classification baseEnv "p" 2).2.2.1
     ErrorKind.ioError "io failure" rfl (by decide) (by decide),
   (printLogSegmentHeader_classification envSeg "p" 2).2.2.2 segInfoW rfl⟩

/-- C9: two invocations of PrintLogSegmentHeader on the same path against the
same unchanged filesystem state yield identical results (in particular the
same rendered header text): the reader threads no hidden mutable state, and
for a valid segment the common text is the deterministic rendering of the
file size and header. -/
theorem printLogSegmentHeader_deterministic (env : Env) (path : String)
    (indent : Nat) (seg : SegmentInfo)
    (h : env.openSegment path = OpenOutcome.opened seg) :
    (PrintLogSegmentHeaderTwice env path indent).1 =
      (PrintLogSegmentHeaderTwice env path indent).2 ∧
    (PrintLogSegmentHeaderTwice env path indent).1.2 =
      [Indent indent ++ "Size: " ++ env.humanBytes seg.fileSize,
       Indent indent ++ "Header: ",
       IndentString seg.headerDebugString indent] := by
  refine ⟨rfl, ?_⟩
  simp [PrintLogSegmentHeaderTwice, PrintLogSegmentHeader, h]

/-- Witness for the C9 theorem at a concrete environment holding one valid
segment. -/
theorem printLogSegmentHeader_deterministic_witness :
    (PrintLogSegmentHeaderTwice envSeg "p" 2).1 =
      (PrintLogSegmentHeaderTwice envSeg "p" 2).2 ∧
    (PrintLogSegmentHeaderTwice envSeg "p" 2).1.2 =
      [Indent 2 ++ "Size: " ++ envSeg.humanBytes segInfoW.fileSize,
       Indent 2 ++ "Header: ",
       IndentString segInfoW.headerDebugString 2] :=
  printLogSegmentHeader_deterministic envSeg "p" 2 segInfoW rfl

theorem segmentsLoop_filter (env : Env) (dl : DetailLevel) (d : String) :
    ∀ l : List String,
      SegmentsLoop env dl d l =
        SegmentsLoop env dl d (l.filter env.isLogFileName) := by
  intro l
  induction l with
  | nil => rfl
  | cons s t ih =>
      cases h : env.isLogFileName s
      · simp [SegmentsLoop, h, List.filter_cons, ih]
      · simp only [SegmentsLoop, h, List.filter_cons, if_true, Bool.not_true,
          Bool.false_eq_true, if_false, ih]

theorem segmentsLoop_idOnly (env : Env) (d : String) :
    ∀ l : List String,
      SegmentsLoop env .idOnly d l =
        (Status.ok, (l.filter env.isLogFileName).map (fun s => "\t" ++ s)) := by
  intro l
  induction l with
  | nil => rfl
  | cons s t ih =>
      cases h : env.isLogFileName s <;>
        simp [SegmentsLoop, h, List.filter_cons, ih, ge_id_headers]

theorem segmentsLoop_headers (env : Env) (dl : DetailLevel) (d : String)
    (hdl : DetailLevel.ge dl .headersOnly = true) :
    ∀ l : List String,
      (∀ s ∈ l, env.isLogFileName s = true →
        (PrintLogSegmentHeader env (JoinPathSegments d s) 2).1 = Status.ok) →
      SegmentsLoop env dl d l =
        (Status.ok,
          (l.filter env.isLogFileName).flatMap
            (fun s => ("Segment: " ++ s) ::
              (PrintLogSegmentHeader env (JoinPathSegments d s) 2).2)) := by
  intro l
  induction l with
  | nil => intro _; rfl
  | cons s t ih =>
      intro hall
      have ht := fun x hx hh => hall x (List.mem_cons_of_mem s hx) hh
      cases h : env.isLogFileName s
      · simpa [SegmentsLoop, h, List.filter_cons] using ih ht
      · have hs := hall s (List.mem_cons_self s t) h
        simp [SegmentsLoop, h, hdl, hs, List.filter_cons, ih ht]

/-- C3: for every directory listing, ListSegmentsInDir outputs exactly the
recognized-name subset in listing order, and every non-matching name is
silently skipped (the loop result over the raw listing equals the result
over its recognized subset): at ID_ONLY the output is the banner followed by
a tab-prefixed line per recognized name, and at HEADERS_ONLY or above (when
no header read fails fatally) the banner followed by a `Segment:` line and
the header rendering per recognized name. -/
theorem listSegmentsInDir_recognized_subset (env : Env) (dir : String)
    (segs : List String) (h : env.listDir dir = Except.ok segs) :
    (∀ dl, SegmentsLoop env dl dir segs =
      SegmentsLoop env dl dir (segs.filter env.isLogFileName)) ∧
    ListSegmentsInDir env DetailLevel.idOnly dir =
      (Status.ok, ("Segments in " ++ dir ++ ":") ::
        (segs.filter env.isLogFileName).map (fun s => "\t" ++ s)) ∧
    (∀ dl, DetailLevel.ge dl DetailLevel.headersOnly = true →
      (∀ s ∈ segs, env.isLogFileName s = true →
        (PrintLogSegmentHeader env (JoinPathSegments dir s) 2).1 = Status.ok) →
      ListSegmentsInDir env dl dir =
        (Status.ok, ("Segments in " ++ dir ++ ":") ::
          (segs.filter env.isLogFileName).flatMap
            (fun s => ("Segment: " ++ s) ::
              (PrintLogSegmentHeader env (JoinPathSegments dir s) 2).2))) := by
  refine ⟨fun dl => segmentsLoop_filter env dl dir segs, ?_, ?_⟩
  · simp [ListSegmentsInDir, h, segmentsLoop_idOnly]
  · intro dl hdl hall
    simp [ListSegmentsInDir, h, segmentsLoop_headers env dl dir hdl segs hall]

/-- Witness for the C3 theorem on a concrete listing holding one recognized
segment name and one stray name: only the recognized name is output. -/
theorem listSegmentsInDir_recognized_subset_witness :
    ListSegmentsInDir envSeg DetailLevel.idOnly "d" =
      (Status.ok, ("Segments in " ++ "d" ++ ":") ::
        ((["seg1", "stray"].filter envSeg.isLogFileName).map
          (fun s => "\t" ++ s))) :=
  (listSegmentsInDir_recognized_subset envSeg "d" ["seg1", "stray"] rfl).2.1

/-- C4: hidden (dot-prefixed) entry names are never walked: at the table
level the per-table loop runs on the listing with dot-prefixed names erased
(fs_tool.cc:134), so a hidden name in the raw listing contributes nothing,
and at the child level the per-child loop skips a dot-prefixed child
entirely — no classification, no printed label, no segment scan
(fs_tool.cc:140-143). -/
theorem hidden_entries_never_walked (env : Env) (dl : DetailLevel) :
    (∀ walsDir hidden tables, HasPrefixString hidden "." = true →
      TableLoop env dl walsDir
        ((hidden :: tables).filter (fun s => !HasPrefixString s ".")) =
      TableLoop env dl walsDir
        (tables.filter (fun s => !HasPrefixString s "."))) ∧
    (∀ tableWalDir hidden children, HasPrefixString hidden "." = true →
      ChildLoop env dl tableWalDir (hidden :: children) =
      ChildLoop env dl tableWalDir children) := by
  constructor
  · intro walsDir hidden tables hh
    simp [List.filter_cons, hh]
  · intro tableWalDir hidden children hh
    simp [ChildLoop, hh]

/-- Witness for the C4 theorem at the concrete hidden entry name `.hid`. -/
theorem hidden_entries_never_walked_witness :
    TableLoop baseEnv DetailLevel.idOnly "w"
      (([".hid", "tbl"]).filter (fun s => !HasPrefixString s ".")) =
    TableLoop baseEnv DetailLevel.idOnly "w"
      ((["tbl"]).filter (fun s => !HasPrefixString s ".")) ∧
    ChildLoop baseEnv DetailLevel.idOnly "w" [".hid"] =
      ChildLoop baseEnv DetailLevel.idOnly "w" [] :=
  ⟨(hidden_entries_never_walked baseEnv DetailLevel.idOnly).1 "w" ".hid" ["tbl"]
     (by decide),
   (hidden_entries_never_walked baseEnv DetailLevel.idOnly).2 "w" ".hid" []
     (by decide)⟩

/-- C5: every non-hidden child of a table WAL directory is labelled as a log
recovery directory iff its name ends with `FsManager::kWalsRecoveryDirSuffix`
and as a normal log directory otherwise (one label is always printed, so the
classification is mutually exclusive and exhaustive), and the segment scan of
that child directory follows the label. -/
theorem child_classification (env : Env) (dl : DetailLevel)
    (tableWalDir child : String) (rest : List String)
    (h : HasPrefixString child "." = false) :
    ∃ st out,
      ChildLoop env dl tableWalDir (child :: rest) =
        (st, ((if HasSuffixString child kWalsRecoveryDirSuffix then
                 "Log recovery dir found: " else "Log directory: ") ++
               JoinPathSegments tableWalDir child) ::
             (ListSegmentsInDir env dl (JoinPathSegments tableWalDir child)).2
               ++ out) := by
  by_cases hok :
      (ListSegmentsInDir env dl (JoinPathSegments tableWalDir child)).1 =
        Status.ok
  · refine ⟨(ChildLoop env dl tableWalDir rest).1,
      (ChildLoop env dl tableWalDir rest).2, ?_⟩
    cases hs : HasSuffixString child kWalsRecoveryDirSuffix <;>
      simp [ChildLoop, h, hs, hok]
  · refine ⟨(ListSegmentsInDir env dl
      (JoinPathSegments tableWalDir child)).1, [], ?_⟩
    cases hs : HasSuffixString child kWalsRecoveryDirSuffix <;>
      simp [ChildLoop, h, hs, hok]

/-- Witness for the C5 theorem at the concrete non-hidden child `tab1`. -/
theorem child_classification_witness :
    ∃ st out,
      ChildLoop baseEnv DetailLevel.idOnly "t" ["tab1"] =
        (st, ((if HasSuffixString "tab1" kWalsRecoveryDirSuffix then
                 "Log recovery dir found: " else "Log directory: ") ++
               JoinPathSegments "t" "tab1") ::
             (ListSegmentsInDir baseEnv DetailLevel.idOnly
               (JoinPathSegments "t" "tab1")).2 ++ out) :=
  child_classification baseEnv DetailLevel.idOnly "t" "tab1" [] (by decide)

/-- C7: ListLogSegmentsForTablet called with a tablet id that does not exist
returns NotFound with that tablet id present in the error message and
produces no stdout output — both when the metadata record is absent
(modelled from the spec for `TabletMetadata::Load`) and when the metadata
loads but the tablet's WAL directory does not exist (fs_tool.cc:165-168). -/
theorem listLogSegmentsForTablet_missing (env : Env) (dl : DetailLevel)
    (tabletId : String) :
    (env.tabletMetas tabletId = none →
      ∃ a b, ListLogSegmentsForTablet env dl tabletId =
        (Status.error ErrorKind.notFound (a ++ tabletId ++ b), [])) ∧
    (∀ meta, env.tabletMetas tabletId = some meta →
      env.fsExists meta.walDir = false →
      ∃ a b, ListLogSegmentsForTablet env dl tabletId =
        (Status.error ErrorKind.notFound (a ++ tabletId ++ b), [])) := by
  constructor
  · intro h
    refine ⟨"Unable to load tablet metadata for tablet id ", "", ?_⟩
    simp [ListLogSegmentsForTablet, LoadTabletMetadata, h]
  · intro meta h hw
    refine ⟨"tablet '", "' has no logs in wals dir '" ++ meta.walDir ++ "'", ?_⟩
    simp [ListLogSegmentsForTablet, LoadTabletMetadata, h, hw,
      String.append_assoc]

/-- Witness for the C7 theorem at the concrete unknown tablet id
`missing-id`. -/
theorem listLogSegmentsForTablet_missing_witness :
    ∃ a b, ListLogSegmentsForTablet baseEnv DetailLevel.idOnly "missing-id" =
      (Status.error ErrorKind.notFound (a ++ "missing-id" ++ b), []) :=
  (listLogSegmentsForTablet_missing baseEnv DetailLevel.idOnly "missing-id").1
    rfl

/-- C8: for a tablet whose WAL directory exists, ListLogSegmentsForTablet
scans that WAL directory, and additionally scans the tablet's recovery
directory iff the recovery directory exists; the absence of a recovery
directory is not an error — the operation still returns OK. -/
theorem listLogSegmentsForTablet_recovery (env : Env) (dl : DetailLevel)
    (tabletId : String) (meta : TabletMeta)
    (h1 : env.tabletMetas tabletId = some meta)
    (h2 : env.fsExists meta.walDir = true)
    (h3 : (ListSegmentsInDir env dl meta.walDir).1 = Status.ok) :
    (env.fsExists (GetTabletWalRecoveryDir meta.walDir) = false →
      ListLogSegmentsForTablet env dl tabletId =
        (Status.ok, ("Tablet WAL dir found: " ++ meta.walDir) ::
          (ListSegmentsInDir env dl meta.walDir).2)) ∧
    (env.fsExists (GetTabletWalRecoveryDir meta.walDir) = true →
      ListLogSegmentsForTablet env dl tabletId =
        ((ListSegmentsInDir env dl (GetTabletWalRecoveryDir meta.walDir)).1,
         ("Tablet WAL dir found: " ++ meta.walDir) ::
           (ListSegmentsInDir env dl meta.walDir).2 ++
           ("Recovery dir found: " ++ GetTabletWalRecoveryDir meta.walDir) ::
           (ListSegmentsInDir env dl
             (GetTabletWalRecoveryDir meta.walDir)).2)) := by
  constructor <;> intro hr <;>
    simp [ListLogSegmentsForTablet, LoadTabletMetadata, h1, h2, h3, hr]

/-- Witness for the C8 theorem at a concrete tablet `t1` whose WAL directory
`w` exists and whose recovery directory does not. -/
theorem listLogSegmentsForTablet_recovery_witness :
    ListLogSegmentsForTablet envTab DetailLevel.idOnly "t1" =
      (Status.ok, ("Tablet WAL dir found: " ++ metaW.walDir) ::
        (ListSegmentsInDir envTab DetailLevel.idOnly metaW.walDir).2) :=
  (listLogSegmentsForTablet_recovery envTab DetailLevel.idOnly "t1" metaW
    rfl rfl rfl).1 (by decide)
